import Mathlib

/-!
Verification of the Edit Session & Conversational Action Reconciliation model
of the drawing-analysis application.

The definitions below are a shallow embedding of the state-management code in
the main application component (src/unnamed/part_000) together with the data
model of src/types.ts.  React `useState` updates are modelled as pure
functions on explicit state records; ambient effects are made explicit
parameters:

* `generateId()` (a timestamp/random string) is an injected fresh-id argument
  (`fid`, or an indexed generator `gen` where a handler calls it repeatedly);
* `new Date()` is an injected clock reading (`now : Nat`);
* `window.confirm(...)` is an injected Boolean;
* the two external artifact-generation calls of `handleRegenerateDrawing`
  are injected `Except` oracles (`.ok image` for a resolved promise,
  `.error msg` for a rejected one);
* `toast` notifications are elided everywhere except `handleRestoreError`,
  whose error-signalling behaviour is itself under scrutiny: that handler
  additionally returns the list of notifications it emits.
-/

/-- The category union Critical | Warning | Info (src/types.ts, DesignError.category). -/
inductive ErrorCategory
  | critical
  | warning
  | info
deriving DecidableEq, Repr

/-- The creator union ai | user (src/types.ts, DesignError.createdBy). -/
inductive CreatedBy
  | ai
  | user
deriving DecidableEq, Repr

/-- The union idle | loading | completed (per-step processing states,
src/unnamed/part_000 lines 1602-1610). -/
inductive StepState
  | idle
  | loading
  | completed
deriving DecidableEq, Repr

/-- The union add | edit | delete | restore (src/types.ts, ChangeAction.type). -/
inductive ChangeType
  | add
  | edit
  | delete
  | restore
deriving DecidableEq, Repr

/-- The union error | component (src/types.ts, ChangeAction.target). -/
inductive TargetKind
  | error
  | component
deriving DecidableEq, Repr

/-- The union manual | chat-ai | chat-user (src/types.ts, ChangeAction.source). -/
inductive ChangeSource
  | manual
  | chatAI
  | chatUser
deriving DecidableEq, Repr

/-- The union add | edit | delete | bulk-add (src/types.ts,
PendingErrorAction.type). -/
inductive PendingType
  | add
  | edit
  | delete
  | bulkAdd
deriving DecidableEq, Repr

/-- A `react-hot-toast` notification, as emitted by the handlers. -/
inductive Toast
  | success (msg : String)
  | error (msg : String)
  | info (msg : String)
deriving DecidableEq, Repr

/-- `DesignError` (src/types.ts).  `Date` values are modelled as injected
clock readings of type `Nat`; `confidence` (a JS number in [0,1]) as `Rat`. -/
structure DesignError where
  id : String
  category : ErrorCategory
  description : String
  recommendation : String
  confidence : Rat
  affectedComponents : Option (List String) := none
  location : Option String := none
  detectionReason : Option String := none
  isModified : Option Bool := none
  isNew : Option Bool := none
  isDeleted : Option Bool := none
  createdBy : Option CreatedBy := none
  lastModified : Option Nat := none
deriving DecidableEq, Repr

/-- `PipelineComponent` (src/types.ts). -/
structure PipelineComponent where
  id : String
  type : String
  name : String
  description : String
  location : Option String := none
deriving DecidableEq, Repr

/-- `ChangeAction` (src/types.ts).  In the error-editing handlers modelled
here, `beforeState`/`afterState` only ever hold a `DesignError` snapshot or
null, so the TS union with `PipelineComponent` is narrowed to
`Option DesignError`. -/
structure ChangeAction where
  id : String
  timestamp : Nat
  type : ChangeType
  target : TargetKind
  targetId : String
  description : String
  beforeState : Option DesignError
  afterState : Option DesignError
  source : ChangeSource
deriving DecidableEq, Repr

/-- `EditSession` (src/types.ts). -/
structure EditSession where
  originalErrors : List DesignError
  currentErrors : List DesignError
  originalComponents : List PipelineComponent
  currentComponents : List PipelineComponent
  changeLog : List ChangeAction
  hasUnsavedChanges : Bool
deriving DecidableEq, Repr

/-- `PendingErrorAction` (src/types.ts). -/
structure PendingErrorAction where
  id : String
  type : PendingType
  errors : List DesignError
  userPrompt : String
  timestamp : Nat
deriving DecidableEq, Repr

/-- The application state the edit-session handlers read and write:
the relevant `useState` hooks of the main component
(src/unnamed/part_000 lines 1590-1634). -/
structure AppState where
  originalImage : Option String
  detectedErrors : List DesignError
  annotatedImage : Option String
  updatedImage : Option String
  errorDetection : StepState
  session : EditSession
  pendingChatActions : List PendingErrorAction
  isRegenerating : Bool
deriving DecidableEq, Repr

/-- The initial values of those hooks (src/unnamed/part_000 lines
1590-1634): everything empty, nothing in flight. -/
def initialAppState : AppState :=
  { originalImage := none
    detectedErrors := []
    annotatedImage := none
    updatedImage := none
    errorDetection := StepState.idle
    session :=
      { originalErrors := []
        currentErrors := []
        originalComponents := []
        currentComponents := []
        changeLog := []
        hasUnsavedChanges := false }
    pendingChatActions := []
    isRegenerating := false }

/-- Seeding the session with freshly detected errors, as done inside
`startAnalysis` (src/unnamed/part_000 lines 1710-1722): baseline and working
set both become the detected list, the ledger is cleared and the dirty flag
reset. -/
def seedErrors (errors : List DesignError) (s : EditSession) : EditSession :=
  { s with
    originalErrors := errors
    currentErrors := errors
    hasUnsavedChanges := false
    changeLog := [] }

/-- `handleSaveError` (src/unnamed/part_000 lines 2172-2205).  `fid` is the
`generateId()` result and `now` the `new Date()` reading.  The handler
dispatches on whether `error.id` is already present in `currentErrors`:
absent ids are appended as new user-created findings with an `add` ledger
entry, present ids are replaced in place with an `edit` ledger entry. -/
def handleSaveError (fid : String) (now : Nat) (error : DesignError)
    (s : EditSession) : EditSession :=
  match s.currentErrors.find? (fun e => e.id == error.id) with
  | none =>
    let changeAction : ChangeAction :=
      { id := fid
        timestamp := now
        type := ChangeType.add
        target := TargetKind.error
        targetId := error.id
        description := "Added: " ++ error.description
        beforeState := none
        afterState := some error
        source := ChangeSource.manual }
    { s with
      currentErrors := s.currentErrors ++
        [{ error with isNew := some true, createdBy := some CreatedBy.user,
                      lastModified := some now }]
      changeLog := s.changeLog ++ [changeAction]
      hasUnsavedChanges := true }
  | some prior =>
    let changeAction : ChangeAction :=
      { id := fid
        timestamp := now
        type := ChangeType.edit
        target := TargetKind.error
        targetId := error.id
        description := "Modified: " ++ error.description
        beforeState := some prior
        afterState := some error
        source := ChangeSource.manual }
    { s with
      currentErrors := s.currentErrors.map (fun e =>
        if e.id == error.id then
          { error with isModified := some true, lastModified := some now }
        else e)
      changeLog := s.changeLog ++ [changeAction]
      hasUnsavedChanges := true }

/-- `handleDeleteError` (src/unnamed/part_000 lines 2207-2248).  Returns the
state unchanged when the id is absent from `currentErrors` or the
`window.confirm` dialog (the `confirmed` argument) is declined; otherwise
filters the finding out and appends a `delete` ledger entry carrying the
deleted finding as `beforeState`. -/
def handleDeleteError (fid : String) (now : Nat) (errorId : String)
    (confirmed : Bool) (s : EditSession) : EditSession :=
  match s.currentErrors.find? (fun e => e.id == errorId) with
  | none => s
  | some error =>
    if !confirmed then s
    else
      let changeAction : ChangeAction :=
        { id := fid
          timestamp := now
          type := ChangeType.delete
          target := TargetKind.error
          targetId := errorId
          description := "Deleted: " ++ error.description
          beforeState := some error
          afterState := none
          source := ChangeSource.manual }
      { s with
        currentErrors := s.currentErrors.filter (fun e => e.id != errorId)
        changeLog := s.changeLog ++ [changeAction]
        hasUnsavedChanges := true }

/-- `handleRestoreError` (src/unnamed/part_000 lines 2250-2277).  Looks the
ledger entry up by id; if it is missing, is not a `delete` entry, or has a
null `beforeState`, the handler returns early, emitting nothing at all.
Otherwise it appends the recorded `beforeState` back onto `currentErrors`
and logs a `restore` entry.  The second component of the result is the list
of toast notifications the handler emits. -/
def handleRestoreError (fid : String) (now : Nat) (changeActionId : String)
    (s : EditSession) : EditSession × List Toast :=
  match s.changeLog.find? (fun c => c.id == changeActionId) with
  | none => (s, [])
  | some change =>
    if change.type != ChangeType.delete then (s, [])
    else
      match change.beforeState with
      | none => (s, [])
      | some restoredError =>
        let restoreAction : ChangeAction :=
          { id := fid
            timestamp := now
            type := ChangeType.restore
            target := TargetKind.error
            targetId := restoredError.id
            description := "Restored: " ++ restoredError.description
            beforeState := none
            afterState := some restoredError
            source := ChangeSource.manual }
        ({ s with
           currentErrors := s.currentErrors ++ [restoredError]
           changeLog := s.changeLog ++ [restoreAction]
           hasUnsavedChanges := true },
         [Toast.success "Issue restored successfully"])

/-- `showConfirmation` (src/unnamed/part_000 lines 2002-2012), restricted to
its effect on the Pending Action Queue: the proposed action is appended to
`pendingChatActions`.  (The chat transcript it also appends to is not part
of the session model.) -/
def showConfirmation (action : PendingErrorAction) (st : AppState) : AppState :=
  { st with pendingChatActions := st.pendingChatActions ++ [action] }

/-- `handleConfirmChatAction` (src/unnamed/part_000 lines 2043-2139).
`gen k` is the result of the k-th `generateId()` call made while building
the ledger entries of this confirmation, `now` the clock reading.  An
unknown action id only produces an error toast, leaving the state alone.
`add` and `bulk-add` share one branch appending every payload finding and
one `add` entry per payload; `edit` replaces by id and logs the prior value
found in `currentErrors` at confirmation time (null when absent); `delete`
filters by the id of the payload.  The confirmed action is finally removed from
the queue. -/
def handleConfirmChatAction (gen : Nat → String) (now : Nat)
    (actionId : String) (st : AppState) : AppState :=
  match st.pendingChatActions.find? (fun a => a.id == actionId) with
  | none => st
  | some action =>
    let session' : EditSession :=
      match action.type with
      | PendingType.add | PendingType.bulkAdd =>
        let changeActions : List ChangeAction :=
          action.errors.enum.map (fun p =>
            { id := gen p.1
              timestamp := now
              type := ChangeType.add
              target := TargetKind.error
              targetId := p.2.id
              description := "Added via chat: " ++ p.2.description
              beforeState := none
              afterState := some p.2
              source := ChangeSource.chatAI })
        { st.session with
          currentErrors := st.session.currentErrors ++ action.errors
          changeLog := st.session.changeLog ++ changeActions
          hasUnsavedChanges := true }
      | PendingType.edit =>
        match action.errors.head? with
        | none => st.session
        | some updatedError =>
          let changeAction : ChangeAction :=
            { id := gen 0
              timestamp := now
              type := ChangeType.edit
              target := TargetKind.error
              targetId := updatedError.id
              description := "Modified via chat: " ++ updatedError.description
              beforeState :=
                st.session.currentErrors.find? (fun e => e.id == updatedError.id)
              afterState := some updatedError
              source := ChangeSource.chatAI }
          { st.session with
            currentErrors := st.session.currentErrors.map (fun e =>
              if e.id == updatedError.id then updatedError else e)
            changeLog := st.session.changeLog ++ [changeAction]
            hasUnsavedChanges := true }
      | PendingType.delete =>
        match action.errors.head? with
        | none => st.session
        | some errorToDelete =>
          let changeAction : ChangeAction :=
            { id := gen 0
              timestamp := now
              type := ChangeType.delete
              target := TargetKind.error
              targetId := errorToDelete.id
              description := "Deleted via chat: " ++ errorToDelete.description
              beforeState := some errorToDelete
              afterState := none
              source := ChangeSource.chatAI }
          { st.session with
            currentErrors := st.session.currentErrors.filter (fun e =>
              e.id != errorToDelete.id)
            changeLog := st.session.changeLog ++ [changeAction]
            hasUnsavedChanges := true }
    { st with
      session := session'
      pendingChatActions :=
        st.pendingChatActions.filter (fun a => a.id != actionId) }

/-- `handleDenyChatAction` (src/unnamed/part_000 lines 2141-2159): the
denied action is removed from the queue; the session itself is untouched. -/
def handleDenyChatAction (actionId : String) (st : AppState) : AppState :=
  { st with
    pendingChatActions :=
      st.pendingChatActions.filter (fun a => a.id != actionId) }

/-- `handleDiscardChanges` (src/unnamed/part_000 lines 2389-2401).
`confirmed` is the `window.confirm` answer; on acceptance the working sets
revert to the baselines, the ledger is cleared and the dirty flag reset. -/
def handleDiscardChanges (confirmed : Bool) (s : EditSession) : EditSession :=
  if !confirmed then s
  else
    { s with
      currentErrors := s.originalErrors
      currentComponents := s.originalComponents
      changeLog := []
      hasUnsavedChanges := false }

/-- Result of one run of `handleRegenerateDrawing`: the state afterwards,
which of the two external artifact calls were started, and whether the
commit (step 3) ran. -/
structure RegenOutcome where
  state : AppState
  calledAnnotated : Bool
  calledCorrected : Bool
  committed : Bool
deriving DecidableEq, Repr

/-- `handleRegenerateDrawing` (src/unnamed/part_000 lines 2280-2386).
`annotatedRes`/`correctedRes` are the outcomes of the two awaited external
calls (`generateAnnotatedDrawing`, `generateUpdatedDrawing`).  The handler
returns immediately when no image was uploaded; it sets `isRegenerating`,
aborts (error toast, no external call) when `currentErrors` is empty, and
otherwise awaits the two calls in order.  A rejection from either lands in
the catch block, which touches nothing; only when both succeed does step 3
promote `currentErrors` to the new baseline, clear the ledger and the
pending chat actions, and store the new images.  The `finally` block resets
`isRegenerating` on every path that set it. -/
def handleRegenerateDrawing (annotatedRes correctedRes : Except String String)
    (st : AppState) : RegenOutcome :=
  match st.originalImage with
  | none => ⟨st, false, false, false⟩
  | some _ =>
    let modifiedErrors := st.session.currentErrors
    if modifiedErrors.length == 0 then
      ⟨{ st with isRegenerating := false }, false, false, false⟩
    else
      match annotatedRes with
      | Except.error _ =>
        ⟨{ st with isRegenerating := false }, true, false, false⟩
      | Except.ok annotatedImage =>
        match correctedRes with
        | Except.error _ =>
          ⟨{ st with isRegenerating := false }, true, true, false⟩
        | Except.ok updatedImage =>
          ⟨{ st with
             annotatedImage := some annotatedImage
             updatedImage := some updatedImage
             detectedErrors := modifiedErrors
             session :=
               { st.session with
                 originalErrors := modifiedErrors
                 currentErrors := modifiedErrors
                 hasUnsavedChanges := false
                 changeLog := [] }
             pendingChatActions := []
             isRegenerating := false },
           true, true, true⟩

/-- Visibility of the regenerate section in the UI
(src/unnamed/part_000 line 3114): it is rendered only while the session has
unsaved changes and error detection has completed. -/
def regenerateButtonVisible (st : AppState) : Bool :=
  st.session.hasUnsavedChanges && (st.errorDetection == StepState.completed)

/-- A click on the regenerate button (src/unnamed/part_000 lines 3127-3143):
the button is rendered only when `regenerateButtonVisible` and carries
`disabled={isRegenerating}`, so `handleRegenerateDrawing` runs only when the
section is visible and no regeneration is already in flight; otherwise the
click does nothing. -/
def clickRegenerate (annotatedRes correctedRes : Except String String)
    (st : AppState) : RegenOutcome :=
  if regenerateButtonVisible st && !st.isRegenerating then
    handleRegenerateDrawing annotatedRes correctedRes st
  else
    ⟨st, false, false, false⟩

/-- One manual mutation of the session: a save (add-or-edit dispatch) or a
delete, the two manual CRUD entry points that mutate `currentErrors`
(src/unnamed/part_000 lines 2172-2248). -/
inductive ManualOp
  | save (fid : String) (now : Nat) (error : DesignError)
  | del (fid : String) (now : Nat) (errorId : String) (confirmed : Bool)
deriving Repr

/-- Apply one manual mutation. -/
def applyManualOp (s : EditSession) : ManualOp → EditSession
  | ManualOp.save fid now error => handleSaveError fid now error s
  | ManualOp.del fid now errorId confirmed =>
      handleDeleteError fid now errorId confirmed s

/-- Apply a sequence of manual mutations in order. -/
def applyManualOps (s : EditSession) (ops : List ManualOp) : EditSession :=
  ops.foldl applyManualOp s

/-- The finding ids of the working set. -/
def currentIds (s : EditSession) : List String :=
  s.currentErrors.map (fun e => e.id)

/-- The finding ids of the baseline. -/
def originalIds (s : EditSession) : List String :=
  s.originalErrors.map (fun e => e.id)

/-- Id-uniqueness invariant of the session: neither the working set nor the
baseline contains two findings with the same id. -/
def SessionIdsUnique (s : EditSession) : Prop :=
  (currentIds s).Nodup ∧ (originalIds s).Nodup

/-- One application-level step of the edit-session subsystem, with the
freshness side conditions under which the corresponding handler is actually
invoked in the application:

* `seed` carries the detection results, whose ids are fresh UUIDs assigned
  on receipt (src/services/geminiService.ts lines 222-226), hence nodup;
* `confirm` requires that the payload of a confirmed (bulk-)add carries
  pairwise-distinct ids not already in the working set (these ids are
  freshly generated at proposal time, src/unnamed/part_000 lines 1890-1991);
* `restore` requires that the id being revived is not currently present in
  the working set (the code itself does **not** check this);
* the remaining constructors are unconditional. -/
inductive ValidStep : AppState → AppState → Prop
  | seed (st : AppState) (errors : List DesignError)
      (h : (errors.map (fun e => e.id)).Nodup) :
      ValidStep st { st with session := seedErrors errors st.session }
  | save (st : AppState) (fid : String) (now : Nat) (error : DesignError) :
      ValidStep st { st with session := handleSaveError fid now error st.session }
  | del (st : AppState) (fid : String) (now : Nat) (errorId : String)
      (confirmed : Bool) :
      ValidStep st
        { st with session := handleDeleteError fid now errorId confirmed st.session }
  | restore (st : AppState) (fid : String) (now : Nat) (changeActionId : String)
      (h : ∀ c, st.session.changeLog.find? (fun x => x.id == changeActionId) = some c →
        ∀ r, c.beforeState = some r → r.id ∉ currentIds st.session) :
      ValidStep st
        { st with session := (handleRestoreError fid now changeActionId st.session).1 }
  | propose (st : AppState) (action : PendingErrorAction) :
      ValidStep st (showConfirmation action st)
  | confirm (st : AppState) (gen : Nat → String) (now : Nat) (actionId : String)
      (h : ∀ a, st.pendingChatActions.find? (fun x => x.id == actionId) = some a →
        (a.type = PendingType.add ∨ a.type = PendingType.bulkAdd) →
        (a.errors.map (fun e => e.id)).Nodup ∧
          ∀ i ∈ a.errors.map (fun e => e.id), i ∉ currentIds st.session) :
      ValidStep st (handleConfirmChatAction gen now actionId st)
  | deny (st : AppState) (actionId : String) :
      ValidStep st (handleDenyChatAction actionId st)
  | discard (st : AppState) (confirmed : Bool) :
      ValidStep st { st with session := handleDiscardChanges confirmed st.session }
  | regen (st : AppState) (annotatedRes correctedRes : Except String String) :
      ValidStep st (handleRegenerateDrawing annotatedRes correctedRes st).state

/-- Zero or more valid steps. -/
def Reachable : AppState → AppState → Prop :=
  Relation.ReflTransGen ValidStep

/-- Shape of a ledger entry, with the `edit` clause weakened to what the
code actually guarantees: an `edit` entry always carries an `afterState`,
but its `beforeState` is whatever lookup of the target id in
`currentErrors` produced at logging time, which can be null in the
confirmed-chat path. -/
def EntryShapeOK (c : ChangeAction) : Prop :=
  match c.type with
  | ChangeType.add => c.beforeState = none ∧ c.afterState.isSome
  | ChangeType.delete => c.beforeState.isSome ∧ c.afterState = none
  | ChangeType.edit => c.afterState.isSome
  | ChangeType.restore => c.beforeState = none ∧ c.afterState.isSome

/-! ### Concrete sample data used by witnesses and counterexamples -/

/-- A detection-seeded finding with id `x`. -/
def errX : DesignError :=
  { id := "x"
    category := ErrorCategory.warning
    description := "missing vent"
    recommendation := "add vent"
    confidence := 1 }

/-- A user-entered finding with id `y`, absent from the seeded session. -/
def errY : DesignError :=
  { id := "y"
    category := ErrorCategory.critical
    description := "dead leg"
    recommendation := "remove dead leg"
    confidence := 1 }

/-- A second chat-proposed finding with id `z`. -/
def errZ : DesignError :=
  { id := "z"
    category := ErrorCategory.info
    description := "label overlap"
    recommendation := "move label"
    confidence := 1 }

/-- The session right after seeding with the single finding `errX`. -/
def sampleSession : EditSession := seedErrors [errX] initialAppState.session

/-- Application state after an analysis run detecting `errX`: image uploaded,
error detection completed, session seeded and clean. -/
def sampleApp : AppState :=
  { initialAppState with
    originalImage := some "img"
    detectedErrors := [errX]
    errorDetection := StepState.completed
    session := sampleSession }

/-- `sampleApp` with pending manual changes (dirty session). -/
def dirtyApp : AppState :=
  { sampleApp with session := { sampleSession with hasUnsavedChanges := true } }

/-- `dirtyApp` while a regeneration is already in flight. -/
def regenBusyApp : AppState := { dirtyApp with isRegenerating := true }

/-! ### Helper lemmas -/

theorem find?_append_of_forall_false {α : Type} (l₁ l₂ : List α) (p : α → Bool)
    (h : ∀ x ∈ l₁, p x = false) :
    (l₁ ++ l₂).find? p = l₂.find? p := by
  induction l₁ with
  | nil => rfl
  | cons a l ih =>
    have ha : p a = false := h a (List.mem_cons_self a l)
    simp only [List.cons_append, List.find?_cons, ha]
    exact ih (fun x hx => h x (List.mem_cons_of_mem a hx))

theorem map_ids_replace (l : List DesignError) (repl : DesignError)
    (tid : String) (h : repl.id = tid) :
    ((l.map (fun e => if e.id == tid then repl else e)).map (fun e => e.id))
      = l.map (fun e => e.id) := by
  induction l with
  | nil => rfl
  | cons a l ih =>
    simp only [List.map_cons]
    by_cases hb : a.id = tid
    all_goals
      simp [hb, h, ih]
      intro x hx
      by_cases hx2 : x.id = tid
      · simp [hx2, h]
      · simp [hx2]

theorem perm_cons_filter_of_find? (l : List DesignError) (tid : String)
    (e : DesignError)
    (hfind : l.find? (fun x => x.id == tid) = some e)
    (hnd : (l.map (fun x => x.id)).Nodup) :
    l.Perm (e :: l.filter (fun x => x.id != tid)) := by
  induction l with
  | nil => simp at hfind
  | cons a l ih =>
    by_cases hb : a.id = tid
    · have hfa : (a :: l).find? (fun x => x.id == tid) = some a :=
        List.find?_cons_of_pos _ (by simpa using hb)
      have hea : e = a := by
        rw [hfa] at hfind
        exact (Option.some_inj.mp hfind).symm
      have hrest : ∀ x ∈ l, x.id ≠ tid := by
        intro x hx hxe
        have : a.id ∉ l.map (fun x => x.id) := (List.nodup_cons.mp
          (by simpa using hnd)).1
        exact this (by
          rw [hb, ← hxe]
          exact List.mem_map_of_mem _ hx)
      have hfl : l.filter (fun x => x.id != tid) = l := by
        apply List.filter_eq_self.mpr
        intro x hx
        simpa using hrest x hx
      have : (a :: l).filter (fun x => x.id != tid) = l := by
        simp [List.filter_cons, hb, hfl]
      rw [this, hea]
    · have hfa : (a :: l).find? (fun x => x.id == tid) = l.find? (fun x => x.id == tid) :=
        List.find?_cons_of_neg _ (by simpa using hb)
      rw [hfa] at hfind
      have hnd' : (l.map (fun x => x.id)).Nodup := (List.nodup_cons.mp
        (by simpa using hnd)).2
      have hperm := ih hfind hnd'
      have hfc : (a :: l).filter (fun x => x.id != tid)
          = a :: l.filter (fun x => x.id != tid) := by
        simp [List.filter_cons, hb]
      rw [hfc]
      exact (hperm.cons a).trans (List.Perm.swap e a _)

theorem find?_some_id (l : List DesignError) (tid : String) (e : DesignError)
    (hfind : l.find? (fun x => x.id == tid) = some e) :
    e ∈ l ∧ e.id = tid := by
  refine ⟨List.mem_of_find?_eq_some hfind, ?_⟩
  have := List.find?_some hfind
  simpa using this

theorem handleSaveError_originalErrors (fid : String) (now : Nat)
    (error : DesignError) (s : EditSession) :
    (handleSaveError fid now error s).originalErrors = s.originalErrors := by
  unfold handleSaveError
  cases s.currentErrors.find? (fun e => e.id == error.id) <;> rfl

theorem handleDeleteError_originalErrors (fid : String) (now : Nat)
    (errorId : String) (confirmed : Bool) (s : EditSession) :
    (handleDeleteError fid now errorId confirmed s).originalErrors
      = s.originalErrors := by
  unfold handleDeleteError
  cases s.currentErrors.find? (fun e => e.id == errorId)
  · rfl
  · dsimp only
    split <;> rfl

theorem applyManualOps_originalErrors (ops : List ManualOp) (s : EditSession) :
    (applyManualOps s ops).originalErrors = s.originalErrors := by
  induction ops generalizing s with
  | nil => rfl
  | cons op ops ih =>
    show (applyManualOps (applyManualOp s op) ops).originalErrors = _
    rw [ih]
    cases op with
    | save fid now error => exact handleSaveError_originalErrors fid now error s
    | del fid now errorId confirmed =>
        exact handleDeleteError_originalErrors fid now errorId confirmed s

/-- Every run of `handleRegenerateDrawing` either leaves the session exactly
as it was (upload missing, empty working set, or an external call rejected)
or performs the full commit promoting `currentErrors` to the new baseline. -/
theorem handleRegenerateDrawing_session_cases
    (annotatedRes correctedRes : Except String String) (st : AppState) :
    (handleRegenerateDrawing annotatedRes correctedRes st).state.session = st.session ∨
    ((handleRegenerateDrawing annotatedRes correctedRes st).state.session
        = { st.session with
            originalErrors := st.session.currentErrors
            currentErrors := st.session.currentErrors
            hasUnsavedChanges := false
            changeLog := [] } ∧
      (handleRegenerateDrawing annotatedRes correctedRes st).committed = true) := by
  unfold handleRegenerateDrawing
  cases st.originalImage with
  | none => exact Or.inl rfl
  | some img =>
    dsimp only
    split
    · exact Or.inl rfl
    · cases annotatedRes with
      | error msg => exact Or.inl rfl
      | ok a =>
        cases correctedRes with
        | error msg => exact Or.inl rfl
        | ok u => exact Or.inr ⟨rfl, rfl⟩

/-! ### Further sample data for counterexamples -/

/-- A chat-proposed replacement for `errX` (same id, new text). -/
def editPayload : DesignError :=
  { errX with
    description := "changed vent note"
    isModified := some true
    lastModified := some 5 }

/-- A ledger entry of type `edit` (not `delete`). -/
def sampleEditEntry : ChangeAction :=
  { id := "c9"
    timestamp := 1
    type := ChangeType.edit
    target := TargetKind.error
    targetId := "x"
    description := "Modified: changed vent note"
    beforeState := some errX
    afterState := some editPayload
    source := ChangeSource.manual }

/-- A dirty session whose ledger holds the `edit` entry `sampleEditEntry`. -/
def editLogSession : EditSession :=
  { sampleSession with changeLog := [sampleEditEntry], hasUnsavedChanges := true }

/-! ### Claim theorems -/

/-- C1: Commit atomicity of regeneration.  For every application state, if
`handleRegenerateDrawing` runs with the annotated-artifact call succeeding
and the corrected-artifact call rejecting, the edit session afterwards is
exactly the session before the call — in particular `hasUnsavedChanges` is
still true when it was true before, and `currentErrors`, `originalErrors`
and the change ledger are unchanged (no partial commit). -/
theorem regenerate_commit_atomicity (st : AppState) (img msg : String)
    (h : st.session.hasUnsavedChanges = true) :
    (handleRegenerateDrawing (Except.ok img) (Except.error msg) st).state.session
      = st.session ∧
    (handleRegenerateDrawing (Except.ok img) (Except.error msg) st).state.session.hasUnsavedChanges
      = true := by
  have hcom : (handleRegenerateDrawing (Except.ok img) (Except.error msg) st).committed
      = false := by
    unfold handleRegenerateDrawing
    cases st.originalImage with
    | none => rfl
    | some i =>
      dsimp only
      split <;> rfl
  rcases handleRegenerateDrawing_session_cases (Except.ok img) (Except.error msg) st with
    hs | ⟨_, hc⟩
  · exact ⟨hs, by rw [hs]; exact h⟩
  · rw [hcom] at hc
    exact absurd hc (by simp)

/-- Witness for C1 at a concrete dirty state. -/
theorem regenerate_commit_atomicity_witness :
    (handleRegenerateDrawing (Except.ok "a") (Except.error "boom") dirtyApp).state.session
      = dirtyApp.session ∧
    (handleRegenerateDrawing (Except.ok "a") (Except.error "boom") dirtyApp).state.session.hasUnsavedChanges
      = true :=
  regenerate_commit_atomicity dirtyApp "a" "boom" rfl

/-- C4: Discard resets to baseline.  For every seeded session and every
sequence of manual save/delete mutations applied after seeding,
`handleDiscardChanges` (with the confirmation dialog accepted) leaves
`currentErrors` equal to the seeded baseline, the change ledger empty and
the dirty flag false. -/
theorem discard_resets_to_baseline (errors : List DesignError)
    (s : EditSession) (ops : List ManualOp) :
    (handleDiscardChanges true (applyManualOps (seedErrors errors s) ops)).currentErrors
      = errors ∧
    (handleDiscardChanges true (applyManualOps (seedErrors errors s) ops)).changeLog
      = [] ∧
    (handleDiscardChanges true (applyManualOps (seedErrors errors s) ops)).hasUnsavedChanges
      = false := by
  have horig : (applyManualOps (seedErrors errors s) ops).originalErrors = errors := by
    rw [applyManualOps_originalErrors]
    rfl
  exact ⟨horig, rfl, rfl⟩

/-- C5 counterexample: restoring the ledger entry `c9`, which is of type
`edit`, is a silent no-op — the session is returned unchanged and the
handler emits no notification whatsoever, so no `InvalidStateError` (nor
any other error) is raised, contrary to the claim. -/
theorem restore_non_delete_counterexample :
    handleRestoreError "f1" 9 "c9" editLogSession = (editLogSession, []) := rfl

/-- C5 (amended): calling `handleRestoreError` with a ledger-entry id whose
entry is not of type `delete`, or whose `beforeState` is null, is a silent
no-op: the session (working set, ledger, dirty flag) is returned unchanged
and no error or notification of any kind is emitted. -/
theorem restore_invalid_entry_silent_noop (fid : String) (now : Nat)
    (entryId : String) (s : EditSession) (c : ChangeAction)
    (hfind : s.changeLog.find? (fun x => x.id == entryId) = some c)
    (hbad : c.type ≠ ChangeType.delete ∨ c.beforeState = none) :
    handleRestoreError fid now entryId s = (s, []) := by
  unfold handleRestoreError
  rw [hfind]
  dsimp only
  rcases hbad with hb | hb
  · have hbne : (c.type != ChangeType.delete) = true := by simpa using hb
    simp [hbne]
  · by_cases ht : c.type = ChangeType.delete
    · have hbne : (c.type != ChangeType.delete) = false := by simp [ht]
      simp [hbne, hb]
    · have hbne : (c.type != ChangeType.delete) = true := by simpa using ht
      simp [hbne]

/-- Witness for the amended C5 at the concrete `edit` entry. -/
theorem restore_invalid_entry_silent_noop_witness :
    handleRestoreError "f2" 9 "c9" editLogSession = (editLogSession, []) :=
  restore_invalid_entry_silent_noop "f2" 9 "c9" editLogSession sampleEditEntry rfl
    (Or.inl (by decide))

/-- C7 counterexample: with a regeneration already in flight
(`isRegenerating = true`), invoking `handleRegenerateDrawing` again is not
rejected — the handler consults no in-flight flag and raises no
`AlreadyInProgressError`; it starts the external generation calls again and
even commits. -/
theorem regenerate_handler_unguarded_counterexample :
    regenBusyApp.isRegenerating = true ∧
    (handleRegenerateDrawing (Except.ok "a2") (Except.ok "u2") regenBusyApp).calledAnnotated
      = true ∧
    (handleRegenerateDrawing (Except.ok "a2") (Except.ok "u2") regenBusyApp).committed
      = true :=
  ⟨rfl, rfl, rfl⟩

/-- C7 (amended): concurrent regeneration is prevented only at the UI
layer: the regenerate button carries `disabled={isRegenerating}`, so while
a regeneration is in flight a click invokes nothing — no second run of the
external calls starts and the state is left unchanged.
`handleRegenerateDrawing` itself performs no in-flight check and raises no
`AlreadyInProgressError`. -/
theorem regenerate_singleflight_ui_guard
    (annotatedRes correctedRes : Except String String) (st : AppState)
    (h : st.isRegenerating = true) :
    clickRegenerate annotatedRes correctedRes st = ⟨st, false, false, false⟩ := by
  unfold clickRegenerate
  simp [h]

/-- Witness for the amended C7 at the concrete in-flight state. -/
theorem regenerate_singleflight_ui_guard_witness :
    clickRegenerate (Except.ok "a2") (Except.ok "u2") regenBusyApp
      = ⟨regenBusyApp, false, false, false⟩ :=
  regenerate_singleflight_ui_guard (Except.ok "a2") (Except.ok "u2") regenBusyApp rfl

/-- C6 counterexample: `sampleApp` is a freshly seeded state whose dirty
flag is false and whose working set is non-empty.  The claim says such a
call must be rejected with state unchanged; instead `handleRegenerateDrawing`
consults no dirty flag, starts both external calls and commits. -/
theorem regenerate_ignores_dirty_flag_counterexample :
    sampleApp.session.hasUnsavedChanges = false ∧
    sampleApp.session.currentErrors ≠ [] ∧
    (handleRegenerateDrawing (Except.ok "a3") (Except.ok "u3") sampleApp).calledAnnotated
      = true ∧
    (handleRegenerateDrawing (Except.ok "a3") (Except.ok "u3") sampleApp).committed
      = true :=
  ⟨rfl, by decide, rfl, rfl⟩

/-- C6 (amended): the only precondition `handleRegenerateDrawing` itself
enforces is a non-empty working set — with `currentErrors` empty it makes
no external call and leaves the session unchanged (the rejection surfaces
as an error notification and early return, not a `NothingToRegenerateError`
exception).  The dirty-flag precondition exists only at the UI layer: the
regenerate control is rendered (and hence clickable) only while
`hasUnsavedChanges` is true and error detection has completed, so with the
dirty flag false a click is a no-op; when the session is dirty, the control
visible, no run in flight, an image uploaded and the working set non-empty,
regeneration proceeds. -/
theorem regenerate_precondition_amended
    (annotatedRes correctedRes : Except String String) (st : AppState) :
    (st.session.currentErrors = [] →
      (handleRegenerateDrawing annotatedRes correctedRes st).state.session = st.session ∧
      (handleRegenerateDrawing annotatedRes correctedRes st).calledAnnotated = false ∧
      (handleRegenerateDrawing annotatedRes correctedRes st).calledCorrected = false) ∧
    (st.session.hasUnsavedChanges = false →
      clickRegenerate annotatedRes correctedRes st = ⟨st, false, false, false⟩) ∧
    (st.session.hasUnsavedChanges = true → st.errorDetection = StepState.completed →
      st.isRegenerating = false → st.originalImage.isSome = true →
      st.session.currentErrors ≠ [] →
      (clickRegenerate annotatedRes correctedRes st).calledAnnotated = true) := by
  refine ⟨?_, ?_, ?_⟩
  · intro he
    unfold handleRegenerateDrawing
    cases st.originalImage with
    | none => exact ⟨rfl, rfl, rfl⟩
    | some img =>
      dsimp only
      simp [he]
  · intro hd
    unfold clickRegenerate regenerateButtonVisible
    simp [hd]
  · intro hd hc hr him hne
    have hcond : (regenerateButtonVisible st && !st.isRegenerating) = true := by
      simp [regenerateButtonVisible, hd, hc, hr]
    unfold clickRegenerate
    rw [hcond]
    simp only [if_true]
    unfold handleRegenerateDrawing
    cases himg : st.originalImage with
    | none => rw [himg] at him; simp at him
    | some img =>
      dsimp only
      have hlen : (st.session.currentErrors.length == 0) = false := by
        rcases List.exists_cons_of_ne_nil hne with ⟨a, l, hl⟩
        simp [hl]
      rw [hlen]
      simp only [Bool.false_eq_true, if_false]
      cases annotatedRes with
      | error msg =>
        cases correctedRes <;> rfl
      | ok a =>
        cases correctedRes <;> rfl

/-- Witness for the amended C6: empty working set at the initial state,
no-op click on a clean seeded state, and a proceeding click on a dirty
state. -/
theorem regenerate_precondition_amended_witness :
    (handleRegenerateDrawing (Except.ok "a4") (Except.ok "u4") initialAppState).calledAnnotated
      = false ∧
    clickRegenerate (Except.ok "a4") (Except.ok "u4") sampleApp
      = ⟨sampleApp, false, false, false⟩ ∧
    (clickRegenerate (Except.ok "a4") (Except.ok "u4") dirtyApp).calledAnnotated = true :=
  ⟨((regenerate_precondition_amended (Except.ok "a4") (Except.ok "u4") initialAppState).1 rfl).2.1,
   (regenerate_precondition_amended (Except.ok "a4") (Except.ok "u4") sampleApp).2.1 rfl,
   (regenerate_precondition_amended (Except.ok "a4") (Except.ok "u4") dirtyApp).2.2
     rfl rfl rfl rfl (by decide)⟩

/-- C3: Delete/restore inverse.  For a session with pairwise-distinct
finding ids (as every seeded session has, detection assigning fresh UUIDs)
and an id present in `currentErrors`, deleting that finding and then
restoring the very ledger entry the delete appended (its id `dfid` being
fresh with respect to the earlier ledger) appends back a finding deep-equal
to the deleted one, and the resulting `currentErrors` is a permutation of
its pre-delete value (same findings, order may differ). -/
theorem delete_restore_inverse (s : EditSession) (errorId dfid rfid : String)
    (dnow rnow : Nat) (e : DesignError)
    (hfind : s.currentErrors.find? (fun x => x.id == errorId) = some e)
    (hnd : (s.currentErrors.map (fun x => x.id)).Nodup)
    (hfresh : ∀ c ∈ s.changeLog, c.id ≠ dfid) :
    ((handleRestoreError rfid rnow dfid (handleDeleteError dfid dnow errorId true s)).1).currentErrors
      = (handleDeleteError dfid dnow errorId true s).currentErrors ++ [e] ∧
    ((handleRestoreError rfid rnow dfid (handleDeleteError dfid dnow errorId true s)).1).currentErrors.Perm
      s.currentErrors := by
  have hdel : handleDeleteError dfid dnow errorId true s =
      { s with
        currentErrors := s.currentErrors.filter (fun x => x.id != errorId)
        changeLog := s.changeLog ++
          [{ id := dfid, timestamp := dnow, type := ChangeType.delete,
             target := TargetKind.error, targetId := errorId,
             description := "Deleted: " ++ e.description,
             beforeState := some e, afterState := none,
             source := ChangeSource.manual }]
        hasUnsavedChanges := true } := by
    unfold handleDeleteError
    rw [hfind]
    rfl
  have hres : ((handleRestoreError rfid rnow dfid (handleDeleteError dfid dnow errorId true s)).1).currentErrors
      = (handleDeleteError dfid dnow errorId true s).currentErrors ++ [e] := by
    rw [hdel]
    unfold handleRestoreError
    dsimp only
    rw [find?_append_of_forall_false _ _ _
      (fun c hc => by simpa using hfresh c hc)]
    simp [List.find?]
  refine ⟨hres, ?_⟩
  rw [hres, hdel]
  have hperm := perm_cons_filter_of_find? s.currentErrors errorId e hfind hnd
  exact (List.perm_append_singleton e _).trans hperm.symm

/-- Witness for C3 on the seeded one-finding session. -/
theorem delete_restore_inverse_witness :
    ((handleRestoreError "r1" 2 "d1" (handleDeleteError "d1" 1 "x" true sampleSession)).1).currentErrors
      = (handleDeleteError "d1" 1 "x" true sampleSession).currentErrors ++ [errX] ∧
    ((handleRestoreError "r1" 2 "d1" (handleDeleteError "d1" 1 "x" true sampleSession)).1).currentErrors.Perm
      sampleSession.currentErrors :=
  delete_restore_inverse sampleSession "x" "d1" "r1" 1 2 errX rfl (by decide) (by decide)

/-- C10: the manual save dispatches on id presence rather than failing on
an unknown id.  If the id of the saved finding is absent from `currentErrors`,
it is appended as a new entry (flagged `isNew`, `createdBy = user`) and an
`add` ledger entry with null `beforeState` is logged; if the id is present,
the matching finding is replaced in place (flagged `isModified`) and an
`edit` ledger entry recording the prior value as `beforeState` is logged;
in both cases the dirty flag becomes true. -/
theorem manual_save_dispatch (fid : String) (now : Nat) (e : DesignError)
    (s : EditSession) :
    (s.currentErrors.find? (fun x => x.id == e.id) = none →
      (handleSaveError fid now e s).currentErrors
        = s.currentErrors ++
            [{ e with isNew := some true,
                      createdBy := some CreatedBy.user,
                      lastModified := some now }] ∧
      (handleSaveError fid now e s).changeLog
        = s.changeLog ++
            [{ id := fid, timestamp := now, type := ChangeType.add,
               target := TargetKind.error, targetId := e.id,
               description := "Added: " ++ e.description,
               beforeState := none, afterState := some e,
               source := ChangeSource.manual }] ∧
      (handleSaveError fid now e s).hasUnsavedChanges = true) ∧
    (∀ prior, s.currentErrors.find? (fun x => x.id == e.id) = some prior →
      (handleSaveError fid now e s).currentErrors
        = s.currentErrors.map (fun x =>
            if x.id == e.id then
              { e with isModified := some true, lastModified := some now }
            else x) ∧
      (handleSaveError fid now e s).changeLog
        = s.changeLog ++
            [{ id := fid, timestamp := now, type := ChangeType.edit,
               target := TargetKind.error, targetId := e.id,
               description := "Modified: " ++ e.description,
               beforeState := some prior, afterState := some e,
               source := ChangeSource.manual }] ∧
      (handleSaveError fid now e s).hasUnsavedChanges = true) := by
  constructor
  · intro h
    unfold handleSaveError
    rw [h]
    exact ⟨rfl, rfl, rfl⟩
  · intro prior h
    unfold handleSaveError
    rw [h]
    exact ⟨rfl, rfl, rfl⟩

/-- Witness for C10: saving the unknown id `y` appends, saving the known id
`x` replaces in place. -/
theorem manual_save_dispatch_witness :
    ((handleSaveError "f3" 7 errY sampleSession).currentErrors
        = sampleSession.currentErrors ++
            [{ errY with isNew := some true,
                         createdBy := some CreatedBy.user,
                         lastModified := some 7 }] ∧
      (handleSaveError "f3" 7 errY sampleSession).changeLog
        = sampleSession.changeLog ++
            [{ id := "f3", timestamp := 7, type := ChangeType.add,
               target := TargetKind.error, targetId := errY.id,
               description := "Added: " ++ errY.description,
               beforeState := none, afterState := some errY,
               source := ChangeSource.manual }] ∧
      (handleSaveError "f3" 7 errY sampleSession).hasUnsavedChanges = true) ∧
    ((handleSaveError "f4" 8 editPayload sampleSession).currentErrors
        = sampleSession.currentErrors.map (fun x =>
            if x.id == editPayload.id then
              { editPayload with isModified := some true, lastModified := some 8 }
            else x) ∧
      (handleSaveError "f4" 8 editPayload sampleSession).changeLog
        = sampleSession.changeLog ++
            [{ id := "f4", timestamp := 8, type := ChangeType.edit,
               target := TargetKind.error, targetId := editPayload.id,
               description := "Modified: " ++ editPayload.description,
               beforeState := some errX, afterState := some editPayload,
               source := ChangeSource.manual }] ∧
      (handleSaveError "f4" 8 editPayload sampleSession).hasUnsavedChanges = true) :=
  ⟨(manual_save_dispatch "f3" 7 errY sampleSession).1 rfl,
   (manual_save_dispatch "f4" 8 editPayload sampleSession).2 errX rfl⟩

/-- Projecting the per-payload `add` ledger entries built by
`handleConfirmChatAction` back onto the payload list. -/
theorem enumFrom_add_entries_proj (l : List DesignError) (gen : Nat → String)
    (now : Nat) (n : Nat) :
    (((List.enumFrom n l).map (fun p =>
        ({ id := gen p.1
           timestamp := now
           type := ChangeType.add
           target := TargetKind.error
           targetId := p.2.id
           description := "Added via chat: " ++ p.2.description
           beforeState := none
           afterState := some p.2
           source := ChangeSource.chatAI } : ChangeAction))).map
      (fun c => (c.type, c.targetId, c.afterState)))
      = l.map (fun e => (ChangeType.add, e.id, some e)) := by
  induction l generalizing n with
  | nil => rfl
  | cons a l ih =>
    simp only [List.enumFrom, List.map_cons]
    exact congrArg _ (ih (n + 1))

/-- Shape of every pending action the chat proposal path
(`handleFunctionCall`, src/unnamed/part_000 lines 1883-1999) ever enqueues:
`add`, `edit` and `delete` actions carry exactly one payload finding; only
`bulk-add` carries arbitrarily many. -/
def WellFormedPending (a : PendingErrorAction) : Prop :=
  a.type ≠ PendingType.bulkAdd → a.errors.length = 1

/-- C8: confirming a queued chat action removes that action id from the
Pending Action Queue and appends exactly one new ledger entry — or exactly
N entries for a bulk-add of N payload findings — with (bulk-)add payloads
appended to `currentErrors` in the order given and each payload producing
its own `add` ledger entry. -/
theorem confirm_clears_queue_and_ledger_granularity
    (gen : Nat → String) (now : Nat) (actionId : String) (st : AppState)
    (a : PendingErrorAction)
    (hfind : st.pendingChatActions.find? (fun x => x.id == actionId) = some a)
    (hwf : WellFormedPending a) :
    (∀ b ∈ (handleConfirmChatAction gen now actionId st).pendingChatActions,
        b.id ≠ actionId) ∧
    (handleConfirmChatAction gen now actionId st).session.changeLog.length
      = st.session.changeLog.length +
          (if a.type = PendingType.bulkAdd then a.errors.length else 1) ∧
    ((a.type = PendingType.add ∨ a.type = PendingType.bulkAdd) →
      (handleConfirmChatAction gen now actionId st).session.currentErrors
        = st.session.currentErrors ++ a.errors ∧
      (((handleConfirmChatAction gen now actionId st).session.changeLog.drop
          st.session.changeLog.length).map (fun c => (c.type, c.targetId, c.afterState)))
        = a.errors.map (fun e => (ChangeType.add, e.id, some e))) := by
  refine ⟨?_, ?_, ?_⟩
  · intro b hb
    unfold handleConfirmChatAction at hb
    rw [hfind] at hb
    dsimp only at hb
    have := (List.mem_filter.mp hb).2
    simpa using this
  · unfold handleConfirmChatAction
    rw [hfind]
    dsimp only
    cases ha : a.type with
    | add =>
      have h1 : a.errors.length = 1 := hwf (by simp [ha])
      simp [List.enum, h1]
    | bulkAdd =>
      simp [List.enum]
    | edit =>
      have h1 : a.errors.length = 1 := hwf (by simp [ha])
      obtain ⟨u, hu⟩ := List.length_eq_one.mp h1
      rw [hu]
      simp
    | delete =>
      have h1 : a.errors.length = 1 := hwf (by simp [ha])
      obtain ⟨u, hu⟩ := List.length_eq_one.mp h1
      rw [hu]
      simp
  · intro hor
    unfold handleConfirmChatAction
    rw [hfind]
    dsimp only
    cases ha : a.type with
    | add =>
      refine ⟨rfl, ?_⟩
      rw [List.drop_left]
      simpa [List.enum] using enumFrom_add_entries_proj a.errors gen now 0
    | bulkAdd =>
      refine ⟨rfl, ?_⟩
      rw [List.drop_left]
      simpa [List.enum] using enumFrom_add_entries_proj a.errors gen now 0
    | edit =>
      rw [ha] at hor
      rcases hor with h | h <;> exact absurd h (by simp)
    | delete =>
      rw [ha] at hor
      rcases hor with h | h <;> exact absurd h (by simp)

/-- A bulk-add proposal of two findings. -/
def bulkAction : PendingErrorAction :=
  { id := "b1"
    type := PendingType.bulkAdd
    errors := [errY, errZ]
    userPrompt := "add two issues"
    timestamp := 9 }

/-- `sampleApp` right after the chat proposes `bulkAction`. -/
def queuedApp : AppState := showConfirmation bulkAction sampleApp

/-- A fresh-id generator for the ledger entries of the confirmation. -/
def genW : Nat → String := fun n => "g" ++ Nat.repr n

/-- Witness for C8: confirming the queued bulk-add of two findings appends
exactly two ledger entries and both payloads in order. -/
theorem confirm_clears_queue_witness :
    (handleConfirmChatAction genW 9 "b1" queuedApp).session.changeLog.length
      = queuedApp.session.changeLog.length + 2 ∧
    (handleConfirmChatAction genW 9 "b1" queuedApp).session.currentErrors
      = queuedApp.session.currentErrors ++ bulkAction.errors := by
  have h := confirm_clears_queue_and_ledger_granularity genW 9 "b1" queuedApp
    bulkAction rfl (fun hn => absurd rfl hn)
  exact ⟨by simpa using h.2.1, (h.2.2 (Or.inr rfl)).1⟩

/-- The chat proposal editing `errX` (same id, new wording), as built by the
`edit_error_node` branch of `handleFunctionCall` while `errX` was present. -/
def pendingEdit : PendingErrorAction :=
  { id := "a1"
    type := PendingType.edit
    errors := [editPayload]
    userPrompt := "reword issue x"
    timestamp := 3 }

/-- `sampleApp` after the chat proposes the edit of `errX`. -/
def chatEditApp : AppState := showConfirmation pendingEdit sampleApp

/-- ... after the user then manually deletes `errX`. -/
def chatEditDeleted : AppState :=
  { chatEditApp with session := handleDeleteError "c1" 4 "x" true chatEditApp.session }

/-- ... after the user finally confirms the stale edit proposal. -/
def chatEditConfirmed : AppState :=
  handleConfirmChatAction (fun _ => "c2") 5 "a1" chatEditDeleted

/-- C9 counterexample: confirming a chat edit whose target was deleted
between propose and confirm appends an `edit` ledger entry whose
`beforeState` is null, violating the claimed shape invariant that `edit`
entries carry both snapshots.  The full resulting ledger is the delete
entry followed by that degenerate edit entry. -/
theorem chat_edit_null_before_counterexample :
    chatEditConfirmed.session.changeLog.map
        (fun c => (c.type, c.beforeState, c.afterState.isSome))
      = [(ChangeType.delete, some errX, false), (ChangeType.edit, none, true)] := rfl

/-- C9 (amended): every ledger entry appended by any of the four
entry-producing handlers satisfies the shape invariant with the `edit`
clause weakened: `add` entries have null `beforeState` and present
`afterState`; `delete` entries the reverse; `restore` entries have null
`beforeState` and an `afterState` identical to the `beforeState` of the
referenced `delete` entry; `edit` entries always carry an `afterState`,
and the manual path also guarantees a present `beforeState`, but the
confirmed-chat path records whatever the target-id lookup produced at
confirmation time, which is null when the target is no longer present. -/
theorem ledger_entry_shapes_amended (fid : String) (now : Nat)
    (error : DesignError) (errorId entryId actionId : String)
    (confirmed : Bool) (gen : Nat → String) (s : EditSession) (st : AppState) :
    (∀ c ∈ (handleSaveError fid now error s).changeLog,
        c ∈ s.changeLog ∨
          (EntryShapeOK c ∧ (c.type = ChangeType.edit → c.beforeState.isSome = true))) ∧
    (∀ c ∈ (handleDeleteError fid now errorId confirmed s).changeLog,
        c ∈ s.changeLog ∨ EntryShapeOK c) ∧
    (∀ c ∈ ((handleRestoreError fid now entryId s).1).changeLog,
        c ∈ s.changeLog ∨
          (EntryShapeOK c ∧
            ∃ d, s.changeLog.find? (fun x => x.id == entryId) = some d ∧
              d.type = ChangeType.delete ∧ c.type = ChangeType.restore ∧
              c.afterState = d.beforeState ∧ c.beforeState = none)) ∧
    (∀ c ∈ (handleConfirmChatAction gen now actionId st).session.changeLog,
        c ∈ st.session.changeLog ∨ EntryShapeOK c) := by
  refine ⟨?_, ?_, ?_, ?_⟩
  · intro c hc
    unfold handleSaveError at hc
    cases hf : s.currentErrors.find? (fun e => e.id == error.id) <;>
      rw [hf] at hc <;> dsimp only at hc <;>
      rcases List.mem_append.mp hc with h | h
    · exact Or.inl h
    · rw [List.mem_singleton.mp h]
      exact Or.inr ⟨⟨rfl, rfl⟩, by intro h2; exact absurd h2 (by simp)⟩
    · exact Or.inl h
    · rw [List.mem_singleton.mp h]
      exact Or.inr ⟨rfl, fun _ => rfl⟩
  · intro c hc
    unfold handleDeleteError at hc
    cases hf : s.currentErrors.find? (fun e => e.id == errorId) <;>
      rw [hf] at hc <;> dsimp only at hc
    · exact Or.inl hc
    · cases hcc : confirmed
      · rw [hcc] at hc
        simp only [Bool.not_false, if_true] at hc
        exact Or.inl hc
      · rw [hcc] at hc
        simp only [Bool.not_true, Bool.false_eq_true, if_false] at hc
        rcases List.mem_append.mp hc with h | h
        · exact Or.inl h
        · rw [List.mem_singleton.mp h]
          exact Or.inr ⟨rfl, rfl⟩
  · intro c hc
    unfold handleRestoreError at hc
    cases hf : s.changeLog.find? (fun x => x.id == entryId) <;>
      rw [hf] at hc <;> dsimp only at hc
    · exact Or.inl hc
    · rename_i d
      split at hc
      · exact Or.inl hc
      · rename_i hbt
        cases hbs : d.beforeState <;> rw [hbs] at hc <;> dsimp only at hc
        · exact Or.inl hc
        · rename_i r
          rcases List.mem_append.mp hc with h | h
          · exact Or.inl h
          · rw [List.mem_singleton.mp h]
            refine Or.inr ⟨⟨rfl, rfl⟩, d, rfl, ?_, rfl, ?_, rfl⟩
            · simpa using hbt
            · rw [hbs]
  · intro c hc
    unfold handleConfirmChatAction at hc
    cases hf : st.pendingChatActions.find? (fun x => x.id == actionId) <;>
      rw [hf] at hc <;> dsimp only at hc
    · exact Or.inl hc
    · rename_i a
      cases ha : a.type <;> rw [ha] at hc <;> dsimp only at hc
      · rcases List.mem_append.mp hc with h | h
        · exact Or.inl h
        · obtain ⟨p, _, hp⟩ := List.mem_map.mp h
          rw [← hp]
          exact Or.inr ⟨rfl, rfl⟩
      · cases hh : a.errors.head? <;> rw [hh] at hc <;> dsimp only at hc
        · exact Or.inl hc
        · rcases List.mem_append.mp hc with h | h
          · exact Or.inl h
          · rw [List.mem_singleton.mp h]
            exact Or.inr rfl
      · cases hh : a.errors.head? <;> rw [hh] at hc <;> dsimp only at hc
        · exact Or.inl hc
        · rcases List.mem_append.mp hc with h | h
          · exact Or.inl h
          · rw [List.mem_singleton.mp h]
            exact Or.inr ⟨rfl, rfl⟩
      · rcases List.mem_append.mp hc with h | h
        · exact Or.inl h
        · obtain ⟨p, _, hp⟩ := List.mem_map.mp h
          rw [← hp]
          exact Or.inr ⟨rfl, rfl⟩

/-- Witness for the amended C9: the `delete` entry logged by a concrete
manual delete on the seeded session satisfies the shape invariant. -/
theorem ledger_entry_shapes_amended_witness :
    ({ id := "d9", timestamp := 1, type := ChangeType.delete,
       target := TargetKind.error, targetId := "x",
       description := "Deleted: " ++ errX.description,
       beforeState := some errX, afterState := none,
       source := ChangeSource.manual } : ChangeAction) ∈ sampleSession.changeLog ∨
    EntryShapeOK
      { id := "d9", timestamp := 1, type := ChangeType.delete,
        target := TargetKind.error, targetId := "x",
        description := "Deleted: " ++ errX.description,
        beforeState := some errX, afterState := none,
        source := ChangeSource.manual } :=
  (ledger_entry_shapes_amended "d9" 1 errX "x" "e1" "a9" true (fun _ => "g")
      sampleSession sampleApp).2.1 _ (List.Mem.head _)

theorem handleRestoreError_originalErrors (fid : String) (now : Nat)
    (cid : String) (s : EditSession) :
    ((handleRestoreError fid now cid s).1).originalErrors = s.originalErrors := by
  unfold handleRestoreError
  cases s.changeLog.find? (fun c => c.id == cid) with
  | none => rfl
  | some d =>
    dsimp only
    split
    · rfl
    · cases d.beforeState <;> rfl

theorem handleConfirmChatAction_originalErrors (gen : Nat → String) (now : Nat)
    (actionId : String) (st : AppState) :
    (handleConfirmChatAction gen now actionId st).session.originalErrors
      = st.session.originalErrors := by
  unfold handleConfirmChatAction
  cases st.pendingChatActions.find? (fun x => x.id == actionId) with
  | none => rfl
  | some a =>
    dsimp only
    cases a.type with
    | add => rfl
    | bulkAdd => rfl
    | edit => cases a.errors.head? <;> rfl
    | delete => cases a.errors.head? <;> rfl

theorem handleSaveError_preserves_ids (fid : String) (now : Nat)
    (error : DesignError) (s : EditSession)
    (h : (s.currentErrors.map (fun e => e.id)).Nodup) :
    ((handleSaveError fid now error s).currentErrors.map (fun e => e.id)).Nodup := by
  unfold handleSaveError
  cases hf : s.currentErrors.find? (fun e => e.id == error.id) with
  | none =>
    dsimp only
    rw [List.map_append, List.nodup_append]
    refine ⟨h, List.nodup_singleton _, ?_⟩
    intro x hx hy
    have hxi : x = error.id := by simpa using hy
    obtain ⟨y, hy2, hy3⟩ := List.mem_map.mp hx
    have hne := List.find?_eq_none.mp hf y hy2
    rw [hxi] at hy3
    simp [hy3] at hne
  | some prior =>
    dsimp only
    rw [map_ids_replace s.currentErrors
      { error with isModified := some true, lastModified := some now }
      error.id rfl]
    exact h

theorem handleDeleteError_preserves_ids (fid : String) (now : Nat)
    (errorId : String) (confirmed : Bool) (s : EditSession)
    (h : (s.currentErrors.map (fun e => e.id)).Nodup) :
    ((handleDeleteError fid now errorId confirmed s).currentErrors.map
        (fun e => e.id)).Nodup := by
  unfold handleDeleteError
  cases hf : s.currentErrors.find? (fun e => e.id == errorId) with
  | none => exact h
  | some e =>
    dsimp only
    split
    · exact h
    · exact List.Nodup.sublist ((List.filter_sublist _).map _) h

theorem handleRestoreError_preserves_ids (fid : String) (now : Nat)
    (cid : String) (s : EditSession)
    (h : (s.currentErrors.map (fun e => e.id)).Nodup)
    (hguard : ∀ c, s.changeLog.find? (fun x => x.id == cid) = some c →
      ∀ r, c.beforeState = some r → r.id ∉ s.currentErrors.map (fun e => e.id)) :
    (((handleRestoreError fid now cid s).1).currentErrors.map
        (fun e => e.id)).Nodup := by
  unfold handleRestoreError
  cases hf : s.changeLog.find? (fun c => c.id == cid) with
  | none => exact h
  | some d =>
    dsimp only
    split
    · exact h
    · cases hbs : d.beforeState with
      | none => exact h
      | some r =>
        dsimp only
        rw [List.map_append, List.nodup_append]
        refine ⟨h, List.nodup_singleton _, ?_⟩
        intro x hx hy
        have hxi : x = r.id := by simpa using hy
        exact hguard d hf r hbs (hxi ▸ hx)

theorem handleConfirmChatAction_preserves_ids (gen : Nat → String) (now : Nat)
    (actionId : String) (st : AppState)
    (h : (st.session.currentErrors.map (fun e => e.id)).Nodup)
    (hpayload : ∀ a, st.pendingChatActions.find? (fun x => x.id == actionId) = some a →
      (a.type = PendingType.add ∨ a.type = PendingType.bulkAdd) →
      (a.errors.map (fun e => e.id)).Nodup ∧
        ∀ i ∈ a.errors.map (fun e => e.id),
          i ∉ st.session.currentErrors.map (fun e => e.id)) :
    ((handleConfirmChatAction gen now actionId st).session.currentErrors.map
        (fun e => e.id)).Nodup := by
  unfold handleConfirmChatAction
  cases hf : st.pendingChatActions.find? (fun x => x.id == actionId) with
  | none => exact h
  | some a =>
    dsimp only
    cases ha : a.type with
    | add =>
      obtain ⟨hp1, hp2⟩ := hpayload a hf (Or.inl ha)
      dsimp only
      rw [List.map_append, List.nodup_append]
      exact ⟨h, hp1, fun x hx hy => hp2 x hy hx⟩
    | bulkAdd =>
      obtain ⟨hp1, hp2⟩ := hpayload a hf (Or.inr ha)
      dsimp only
      rw [List.map_append, List.nodup_append]
      exact ⟨h, hp1, fun x hx hy => hp2 x hy hx⟩
    | edit =>
      cases a.errors.head? with
      | none => exact h
      | some u =>
        dsimp only
        rw [map_ids_replace _ _ _ rfl]
        exact h
    | delete =>
      cases a.errors.head? with
      | none => exact h
      | some u =>
        dsimp only
        exact List.Nodup.sublist ((List.filter_sublist _).map _) h

theorem validStep_sessionIdsUnique (a b : AppState) (h : ValidStep a b)
    (hInv : SessionIdsUnique a.session) : SessionIdsUnique b.session := by
  cases h with
  | seed errors hnd => exact ⟨hnd, hnd⟩
  | save fid now error =>
    refine ⟨handleSaveError_preserves_ids fid now error a.session hInv.1, ?_⟩
    show ((handleSaveError fid now error a.session).originalErrors.map
      (fun e => e.id)).Nodup
    rw [handleSaveError_originalErrors]
    exact hInv.2
  | del fid now errorId confirmed =>
    refine ⟨handleDeleteError_preserves_ids fid now errorId confirmed a.session hInv.1, ?_⟩
    show ((handleDeleteError fid now errorId confirmed a.session).originalErrors.map
      (fun e => e.id)).Nodup
    rw [handleDeleteError_originalErrors]
    exact hInv.2
  | restore fid now cid hguard =>
    refine ⟨handleRestoreError_preserves_ids fid now cid a.session hInv.1 hguard, ?_⟩
    show (((handleRestoreError fid now cid a.session).1).originalErrors.map
      (fun e => e.id)).Nodup
    rw [handleRestoreError_originalErrors]
    exact hInv.2
  | propose action => exact hInv
  | confirm gen now actionId hpayload =>
    refine ⟨handleConfirmChatAction_preserves_ids gen now actionId a hInv.1 hpayload, ?_⟩
    show ((handleConfirmChatAction gen now actionId a).session.originalErrors.map
      (fun e => e.id)).Nodup
    rw [handleConfirmChatAction_originalErrors]
    exact hInv.2
  | deny actionId => exact hInv
  | discard confirmed =>
    cases confirmed
    · exact hInv
    · exact ⟨hInv.2, hInv.2⟩
  | regen annotatedRes correctedRes =>
    rcases handleRegenerateDrawing_session_cases annotatedRes correctedRes a with
      hs | ⟨hs, _⟩
    · show SessionIdsUnique (handleRegenerateDrawing annotatedRes correctedRes a).state.session
      rw [hs]
      exact hInv
    · show SessionIdsUnique (handleRegenerateDrawing annotatedRes correctedRes a).state.session
      rw [hs]
      exact ⟨hInv.1, hInv.1⟩

/-- C2 (amended): the id-uniqueness invariant of `currentErrors` (and of
the baseline) is preserved along every sequence of valid steps — seeding
with fresh detector UUIDs, manual save/delete, chat propose/deny/confirm
with fresh payload ids, discard and regeneration — provided each restore
revives an id not currently present in the working set.  The code itself
does not enforce the restore side condition, and without it uniqueness
fails (see the double-restore counterexample). -/
theorem uniqueness_invariant_amended (a b : AppState) (h : Reachable a b)
    (hInv : SessionIdsUnique a.session) : SessionIdsUnique b.session := by
  induction h with
  | refl => exact hInv
  | tail hab hbc ih => exact validStep_sessionIdsUnique _ _ hbc ih

/-- Witness for the amended C2: seeding the empty initial state with one
fresh finding is a valid step and yields unique ids. -/
theorem uniqueness_invariant_amended_witness :
    SessionIdsUnique
      ({ initialAppState with
         session := seedErrors [errX] initialAppState.session } : AppState).session :=
  uniqueness_invariant_amended initialAppState _
    (Relation.ReflTransGen.single (ValidStep.seed initialAppState [errX] (by decide)))
    ⟨List.nodup_nil, List.nodup_nil⟩

/-- Session after manually deleting `errX` from the seeded session. -/
def restoreTwice1 : EditSession := handleDeleteError "c1" 1 "x" true sampleSession

/-- ... after restoring the delete entry `c1` once. -/
def restoreTwice2 : EditSession := (handleRestoreError "c2" 2 "c1" restoreTwice1).1

/-- ... after restoring the same delete entry `c1` a second time. -/
def restoreTwice3 : EditSession := (handleRestoreError "c3" 3 "c1" restoreTwice2).1

/-- C2 counterexample: `handleRestoreError` neither consumes the delete
entry nor checks whether the revived id is already present, so invoking it
twice with the same delete ledger-entry id leaves two findings with id `x`
in `currentErrors`, violating the claimed uniqueness invariant. -/
theorem restore_twice_duplicates_ids :
    restoreTwice3.currentErrors.map (fun e => e.id) = ["x", "x"] ∧
    ¬ (restoreTwice3.currentErrors.map (fun e => e.id)).Nodup :=
  ⟨rfl, by decide⟩
